import Mathlib

/-!
Verification of the async-tcp-tests dispatch layer against its specification.

The development shallowly embeds the repository's sources: the thread-confined
`QuoteBuffer` (src/src/QuoteBuffer.cpp), the QOTD receive-side handlers
(src/src/QotdReceivedHandler.cpp, src/src/QotdFinHandler.cpp), the busy-guarded
`SerialPrinter` (src/src/SerialPrinter.cpp), the one-shot `PrintHandler`
(src/include/PrintHandler.hpp, src/src/PrintHandler.cpp) and the synchronous
write wrapper `IoWrite` (src/src/IoWrite.cpp).  Character sequences are
modelled as `List Char`, machine status codes as an inductive type (only their
distinctness matters), and the externally-supplied pieces (the `SyncBridge`
dispatch, the run loop, the transport receive buffer) are modelled from the
specification where the repository only declares or calls them.
-/

/-- Status codes returned by the dispatch layer (pico-sdk error codes in the
source: `PICO_OK`, `PICO_ERROR_RESOURCE_IN_USE`, `PICO_ERROR_NO_DATA`,
`PICO_ERROR_INVALID_ARG`); only their distinctness matters here. -/
inductive PicoStatus where
  | ok
  | resourceInUse
  | noData
  | invalidArg
deriving DecidableEq, Repr

/-- State of `QuoteBuffer` (src/src/QuoteBuffer.cpp): the string buffer
`m_buffer` and the completion flag `m_quote_complete`; the character sequence
is modelled as `List Char`. -/
structure QuoteBuffer where
  m_buffer : List Char
  m_quote_complete : Bool
deriving DecidableEq, Repr

/-- The operations of `QuoteBuffer::BufferPayload::Operation`
(QuoteBuffer.cpp). -/
inductive BufferOp where
  | SET
  | GET
  | APPEND
  | SET_COMPLETE
  | RESET_COMPLETE
  | IS_COMPLETE
deriving DecidableEq, Repr

/-- `BufferPayload` (QuoteBuffer.cpp): the operation, the data for
`SET`/`APPEND`, and whether the `result_ptr` slot is non-null.  The value
written through `result_ptr` is reported in `BridgeOut.written`. -/
structure BufferPayload where
  op : BufferOp
  data : List Char := []
  result_ptr : Bool := false
deriving DecidableEq, Repr

/-- Outcome of one synchronous dispatch against the quote buffer: the new
buffer state, the value written through the payload's `result_ptr` (if any),
and the returned status. -/
structure BridgeOut where
  state : QuoteBuffer
  written : Option (List Char)
  status : PicoStatus
deriving DecidableEq, Repr

/-- `QuoteBuffer::onExecute` (QuoteBuffer.cpp lines 36-73): the operation
switch that runs on the owning core. -/
def QuoteBuffer.onExecute (s : QuoteBuffer) (p : BufferPayload) : BridgeOut :=
  match p.op with
  | BufferOp.SET =>
      ⟨{ s with m_buffer := p.data }, none, PicoStatus.ok⟩
  | BufferOp.APPEND =>
      ⟨{ s with m_buffer := s.m_buffer ++ p.data }, none, PicoStatus.ok⟩
  | BufferOp.SET_COMPLETE =>
      ⟨{ s with m_quote_complete := true }, none, PicoStatus.ok⟩
  | BufferOp.RESET_COMPLETE =>
      ⟨{ m_buffer := [], m_quote_complete := false }, none, PicoStatus.ok⟩
  | BufferOp.IS_COMPLETE =>
      ⟨s, if p.result_ptr then some (if s.m_quote_complete then ['1'] else ['0']) else none,
        PicoStatus.ok⟩
  | BufferOp.GET =>
      if p.result_ptr then ⟨s, some s.m_buffer, PicoStatus.ok⟩
      else ⟨s, none, PicoStatus.noData⟩

/-- Modelled from the spec: `SyncBridge::execute` — the synchronous bridge
class is not among this repository's sources (only `SyncBridge.hpp` is
included by them).  Per spec §4.1, a call that hits the single-slot busy guard
returns a "resource in use" status, leaving the protected resource untouched
and the result slot unpopulated; otherwise the payload's `onExecute` runs on
the owning core.  The `contended` flag says which of the two happened. -/
def QuoteBuffer.execute (contended : Bool) (s : QuoteBuffer) (p : BufferPayload) : BridgeOut :=
  if contended then ⟨s, none, PicoStatus.resourceInUse⟩ else s.onExecute p

/-- `QuoteBuffer::set` (QuoteBuffer.cpp 84-94): dispatches a `SET` payload; a
failing status is only logged, so the caller sees the post-dispatch state. -/
def QuoteBuffer.set (contended : Bool) (s : QuoteBuffer) (data : List Char) : QuoteBuffer :=
  (QuoteBuffer.execute contended s { op := BufferOp.SET, data := data }).state

/-- `QuoteBuffer::append` (QuoteBuffer.cpp 130-140): dispatches an `APPEND`
payload; a failing status is only logged. -/
def QuoteBuffer.append (contended : Bool) (s : QuoteBuffer) (data : List Char) : QuoteBuffer :=
  (QuoteBuffer.execute contended s { op := BufferOp.APPEND, data := data }).state

/-- `QuoteBuffer::get` (QuoteBuffer.cpp 105-119): a local `result_string`
starts empty, a `GET` payload carries a pointer to it, and whatever the local
holds after the dispatch is returned — the unpopulated empty string when the
dispatch failed. -/
def QuoteBuffer.get (contended : Bool) (s : QuoteBuffer) : QuoteBuffer × List Char :=
  let r := QuoteBuffer.execute contended s { op := BufferOp.GET, result_ptr := true }
  (r.state, r.written.getD [])

/-- `QuoteBuffer::empty` (QuoteBuffer.cpp 151-163): same `GET` dispatch as
`get`, returning whether the local `result_string` is empty afterwards. -/
def QuoteBuffer.empty (contended : Bool) (s : QuoteBuffer) : Bool :=
  let r := QuoteBuffer.execute contended s { op := BufferOp.GET, result_ptr := true }
  (r.written.getD []).isEmpty

/-- `QuoteBuffer::setComplete` (QuoteBuffer.cpp 190-199): dispatches
`SET_COMPLETE`. -/
def QuoteBuffer.setComplete (contended : Bool) (s : QuoteBuffer) : QuoteBuffer :=
  (QuoteBuffer.execute contended s { op := BufferOp.SET_COMPLETE }).state

/-- `QuoteBuffer::resetBuffer` (QuoteBuffer.cpp 228-237): dispatches
`RESET_COMPLETE`, which clears the buffer and resets the completion flag. -/
def QuoteBuffer.resetBuffer (contended : Bool) (s : QuoteBuffer) : QuoteBuffer :=
  (QuoteBuffer.execute contended s { op := BufferOp.RESET_COMPLETE }).state

/-- `QuoteBuffer::clear` (QuoteBuffer.cpp 172-182): dispatches `SET` with the
empty string. -/
def QuoteBuffer.clear (contended : Bool) (s : QuoteBuffer) : QuoteBuffer :=
  (QuoteBuffer.execute contended s { op := BufferOp.SET, data := [] }).state

/-- C7: for every prior state of the thread-confined buffer — any stored
string, completion flag true or false — a `reset()` whose dispatch runs
(uncontended) leaves the stored buffer equal to the empty string, so that
`isEmpty()` reports true, and the completion flag false. -/
theorem QuoteBuffer.resetBuffer_resets (s : QuoteBuffer) :
    QuoteBuffer.resetBuffer false s = { m_buffer := [], m_quote_complete := false } ∧
    QuoteBuffer.empty false (QuoteBuffer.resetBuffer false s) = true ∧
    (QuoteBuffer.resetBuffer false s).m_quote_complete = false :=
  ⟨rfl, rfl, rfl⟩

/-- C4 counterexample: with the buffer holding "A", a `get()` whose underlying
dispatch fails with "resource in use" returns the empty string — not the value
the buffer held before the call, as the claim states. -/
theorem QuoteBuffer.get_contended_not_stale :
    (QuoteBuffer.get true { m_buffer := ['A'], m_quote_complete := false }).2 = [] ∧
    (QuoteBuffer.get true { m_buffer := ['A'], m_quote_complete := false }).2 ≠
      ({ m_buffer := ['A'], m_quote_complete := false } : QuoteBuffer).m_buffer := by
  decide

/-- C4 (amended): when the underlying synchronous dispatch fails with
"resource in use", `set` and `append` leave the stored buffer state unchanged
(dropped write) and `get` leaves the state unchanged but returns the empty
string — the unpopulated local result — which coincides with the pre-call
buffer contents only when the buffer was empty. -/
theorem QuoteBuffer.contended_dispatch_noop (s : QuoteBuffer) (d : List Char) :
    QuoteBuffer.set true s d = s ∧
    QuoteBuffer.append true s d = s ∧
    (QuoteBuffer.get true s).1 = s ∧
    (QuoteBuffer.get true s).2 = [] :=
  ⟨rfl, rfl, rfl, rfl⟩

/-- The source's fixed threshold: `QotdReceivedHandler::onWork` declares
`static constexpr size_t PARTIAL_CONSUMPTION_THRESHOLD = 88`
(QotdReceivedHandler.cpp line 43). -/
def CONSUMPTION_THRESHOLD : Nat := 88

/-- `QotdReceivedHandler::onWork` (QotdReceivedHandler.cpp lines 36-79), with
the threshold `T` left as a parameter (the source instantiates it at
`CONSUMPTION_THRESHOLD`).  The transport receive buffer (`IoRxBuffer`, an
external collaborator: `peekAvailable`/`peekBuffer`/`peekConsume`, spec §6) is
modelled as the list `rx` of pending bytes: `peekAvailable` is its length,
building a string of `consume_size` bytes from `peekBuffer` is `take`, and
`peekConsume n` is `drop n`.  `cEmpty` and `cWrite` say whether the dispatch
behind `m_quote_buffer.empty()`, respectively behind `set`/`append`, hits
bridge contention.  Returns the remaining transport bytes and the new quote
buffer state. -/
def QotdReceivedHandler.onWork (T : Nat) (cEmpty cWrite : Bool)
    (rx : List Char) (qb : QuoteBuffer) : List Char × QuoteBuffer :=
  let available := rx.length
  if available = 0 then (rx, qb)
  else
    let consume_size := min available T
    let quote_chunk := rx.take consume_size
    if QuoteBuffer.empty cEmpty qb then
      let qb' := QuoteBuffer.set cWrite qb quote_chunk
      if consume_size ≤ T then (rx.drop consume_size, qb') else (rx, qb')
    else
      let qb' := QuoteBuffer.append cWrite qb quote_chunk
      (rx.drop consume_size, qb')

/-- C1: on a "data available" notification with `a = rx.length > 0` bytes
available and threshold `T`, the received handler (with uncontended
dispatches) copies exactly `min a T` bytes into the quote buffer — by `set`
when the buffer is empty, by `append` when it is not — consumes exactly
`min a T` bytes from the transport, and leaves `a - min a T` bytes pending. -/
theorem QotdReceivedHandler.onWork_consumes_min (T : Nat) (rx : List Char)
    (qb : QuoteBuffer) (ha : rx ≠ []) :
    (QotdReceivedHandler.onWork T false false rx qb).1 = rx.drop (min rx.length T) ∧
    (rx.take (min rx.length T)).length = min rx.length T ∧
    (QotdReceivedHandler.onWork T false false rx qb).2.m_buffer =
      (if qb.m_buffer.isEmpty then rx.take (min rx.length T)
       else qb.m_buffer ++ rx.take (min rx.length T)) ∧
    (QotdReceivedHandler.onWork T false false rx qb).2.m_quote_complete =
      qb.m_quote_complete ∧
    ((QotdReceivedHandler.onWork T false false rx qb).1).length =
      rx.length - min rx.length T := by
  have h0 : rx.length ≠ 0 := by
    simpa [List.length_eq_zero] using ha
  have hmin : min rx.length T ≤ T := Nat.min_le_right _ _
  have hminl : min rx.length T ≤ rx.length := Nat.min_le_left _ _
  unfold QotdReceivedHandler.onWork
  simp only [h0, if_false, QuoteBuffer.empty, QuoteBuffer.execute, QuoteBuffer.onExecute,
    QuoteBuffer.set, QuoteBuffer.append, if_true, if_false, Option.getD_some, hmin]
  by_cases hb : qb.m_buffer.isEmpty
  · simp [hb, List.length_take, List.length_drop, Nat.min_eq_left hminl, hmin]
  · simp [hb, List.length_take, List.length_drop, Nat.min_eq_left hminl]

/-- C1 witness: a concrete instance — 3 bytes available, threshold 2 — where
the handler sets the first 2 bytes and leaves 1 byte pending. -/
theorem QotdReceivedHandler.onWork_consumes_min_witness :
    (QotdReceivedHandler.onWork 2 false false ['A', 'B', 'C']
        { m_buffer := [], m_quote_complete := false }).2.m_buffer = ['A', 'B'] ∧
    (QotdReceivedHandler.onWork 2 false false ['A', 'B', 'C']
        { m_buffer := [], m_quote_complete := false }).1 = ['C'] := by
  have h := QotdReceivedHandler.onWork_consumes_min 2 ['A', 'B', 'C']
    { m_buffer := [], m_quote_complete := false } (by decide)
  exact ⟨by simpa using h.2.2.1, by simpa using h.1⟩

/-- C10: when the dispatch underlying `QuoteBuffer::empty()` fails, the
unpopulated local result string is empty, so `empty()` reports true whatever
the stored contents are; consequently the received handler's first-chunk test
takes the `set` branch on a non-empty buffer and the chunk overwrites the
stored contents. -/
theorem QuoteBuffer.empty_contended_misreads (T : Nat) (s : QuoteBuffer)
    (rx : List Char) (hbuf : s.m_buffer ≠ []) (hrx : rx ≠ []) :
    QuoteBuffer.empty true s = true ∧
    (QotdReceivedHandler.onWork T true false rx s).2.m_buffer =
      rx.take (min rx.length T) := by
  have h0 : rx.length ≠ 0 := by
    simpa [List.length_eq_zero] using hrx
  have hmin : min rx.length T ≤ T := Nat.min_le_right _ _
  constructor
  · rfl
  · unfold QotdReceivedHandler.onWork
    simp [h0, QuoteBuffer.empty, QuoteBuffer.execute, QuoteBuffer.set,
      QuoteBuffer.onExecute, hmin]

/-- C10 witness: buffer holding "A" (non-empty), one byte "B" pending,
threshold 88 — the contended `empty()` answers true and the handler's `set`
replaces "A" by "B". -/
theorem QuoteBuffer.empty_contended_misreads_witness :
    QuoteBuffer.empty true { m_buffer := ['A'], m_quote_complete := false } = true ∧
    (QotdReceivedHandler.onWork 88 true false ['B']
        { m_buffer := ['A'], m_quote_complete := false }).2.m_buffer = ['B'] := by
  have h := QuoteBuffer.empty_contended_misreads 88
    { m_buffer := ['A'], m_quote_complete := false } ['B'] (by decide) (by decide)
  exact ⟨h.1, by simpa using h.2⟩

/-- An uncontended `set` stores exactly the given data. -/
theorem QuoteBuffer.set_false (s : QuoteBuffer) (d : List Char) :
    QuoteBuffer.set false s d = { s with m_buffer := d } := rfl

/-- An uncontended `append` extends the stored buffer. -/
theorem QuoteBuffer.append_false (s : QuoteBuffer) (d : List Char) :
    QuoteBuffer.append false s d = { s with m_buffer := s.m_buffer ++ d } := rfl

/-- An uncontended `setComplete` sets the completion flag. -/
theorem QuoteBuffer.setComplete_false (s : QuoteBuffer) :
    QuoteBuffer.setComplete false s = { s with m_quote_complete := true } := rfl

/-- An uncontended `empty` reports whether the stored buffer is empty. -/
theorem QuoteBuffer.empty_false (s : QuoteBuffer) :
    QuoteBuffer.empty false s = s.m_buffer.isEmpty := rfl

/-- The externally observable actions taken by `QotdFinHandler::onWork`, in
program order: appending a drained chunk to the quote buffer, marking the
quote complete, resetting the transport receive buffer, and shutting the
connection down. -/
inductive FinEvent where
  | append (chunk : List Char)
  | setComplete
  | rxReset
  | shutdown
deriving DecidableEq, Repr

/-- The drain loop of `QotdFinHandler::onWork` (QotdFinHandler.cpp lines
48-59): while bytes remain, take `min available T` of them, append them to the
quote buffer (dispatch uncontended) and consume them from the transport.  The
structural `fuel` argument bounds the iteration count; `fuel = rx.length`
suffices whenever `0 < T`, matching the source loop, which terminates exactly
under that condition.  Returns the remaining transport bytes, the buffer
state, and the trace of events in program order. -/
def QotdFinHandler.drainLoop (T : Nat) :
    Nat → List Char → QuoteBuffer → List Char × QuoteBuffer × List FinEvent
  | 0, rx, qb => (rx, qb, [])
  | fuel + 1, rx, qb =>
    if rx.length = 0 then (rx, qb, [])
    else
      let consume_size := min rx.length T
      let quote_chunk := rx.take consume_size
      let qb' := QuoteBuffer.append false qb quote_chunk
      let rx' := rx.drop consume_size
      let r := QotdFinHandler.drainLoop T fuel rx' qb'
      (r.1, r.2.1, FinEvent.append quote_chunk :: r.2.2)

/-- `QotdFinHandler::onWork` (QotdFinHandler.cpp lines 32-68): with no bytes
remaining, mark the quote complete, reset the receive buffer and shut down;
otherwise drain all remaining bytes through the loop first.  Returns the
pending transport bytes after the call (the source's `m_rx_buffer->reset()`
leaves none), the quote buffer state, and the event trace in program order. -/
def QotdFinHandler.onWork (T : Nat) (rx : List Char) (qb : QuoteBuffer) :
    List Char × QuoteBuffer × List FinEvent :=
  if rx.length = 0 then
    ([], QuoteBuffer.setComplete false qb,
      [FinEvent.setComplete, FinEvent.rxReset, FinEvent.shutdown])
  else
    let r := QotdFinHandler.drainLoop T rx.length rx qb
    ([], QuoteBuffer.setComplete false r.2.1,
      r.2.2 ++ [FinEvent.setComplete, FinEvent.rxReset, FinEvent.shutdown])

/-- Characterisation of the drain loop: with positive threshold and enough
fuel it empties the transport, appends all pending bytes to the buffer in
order, and its trace is a sequence of appends whose chunks concatenated give
the drained bytes, every chunk non-empty and at most `T` long, and every chunk
but the last exactly `T` long. -/
theorem QotdFinHandler.drainLoop_spec (T : Nat) (hT : 0 < T) :
    ∀ fuel rx qb, rx.length ≤ fuel →
      (QotdFinHandler.drainLoop T fuel rx qb).1 = [] ∧
      (QotdFinHandler.drainLoop T fuel rx qb).2.1 =
        { qb with m_buffer := qb.m_buffer ++ rx } ∧
      ∃ chunks : List (List Char),
        (QotdFinHandler.drainLoop T fuel rx qb).2.2 = chunks.map FinEvent.append ∧
        chunks.flatten = rx ∧
        (∀ c ∈ chunks, c ≠ [] ∧ c.length ≤ T) ∧
        (∀ c ∈ chunks.dropLast, c.length = T) := by
  intro fuel
  induction fuel with
  | zero =>
    intro rx qb hle
    have hrx : rx = [] := List.length_eq_zero.mp (Nat.le_zero.mp hle)
    subst hrx
    exact ⟨rfl, by simp [QotdFinHandler.drainLoop], ⟨[], by simp [QotdFinHandler.drainLoop]⟩⟩
  | succ fuel ih =>
    intro rx qb hle
    by_cases h0 : rx.length = 0
    · have hrx : rx = [] := List.length_eq_zero.mp h0
      subst hrx
      exact ⟨rfl, by simp [QotdFinHandler.drainLoop], ⟨[], by simp [QotdFinHandler.drainLoop]⟩⟩
    · have hlen : 0 < rx.length := Nat.pos_of_ne_zero h0
      have hk : 0 < min rx.length T := lt_min hlen hT
      have hkl : min rx.length T ≤ rx.length := Nat.min_le_left _ _
      have hkT : min rx.length T ≤ T := Nat.min_le_right _ _
      have hdrop : (rx.drop (min rx.length T)).length ≤ fuel := by
        rw [List.length_drop]; omega
      have hstep :
          QotdFinHandler.drainLoop T (fuel + 1) rx qb =
            ((QotdFinHandler.drainLoop T fuel (rx.drop (min rx.length T))
                (QuoteBuffer.append false qb (rx.take (min rx.length T)))).1,
             (QotdFinHandler.drainLoop T fuel (rx.drop (min rx.length T))
                (QuoteBuffer.append false qb (rx.take (min rx.length T)))).2.1,
             FinEvent.append (rx.take (min rx.length T)) ::
               (QotdFinHandler.drainLoop T fuel (rx.drop (min rx.length T))
                  (QuoteBuffer.append false qb (rx.take (min rx.length T)))).2.2) := by
        simp [QotdFinHandler.drainLoop, h0]
      obtain ⟨ih1, ih2, chunks, ihm, ihj, ihne, ihlast⟩ :=
        ih (rx.drop (min rx.length T)) (QuoteBuffer.append false qb (rx.take (min rx.length T)))
          hdrop
      have htakelen : (rx.take (min rx.length T)).length = min rx.length T := by
        rw [List.length_take]; omega
      refine ⟨by rw [hstep]; exact ih1, ?_, ?_⟩
      · rw [hstep, ih2, QuoteBuffer.append_false]
        have : (qb.m_buffer ++ rx.take (min rx.length T)) ++ rx.drop (min rx.length T) =
            qb.m_buffer ++ rx := by
          rw [List.append_assoc, List.take_append_drop]
        simp only [this]
      · refine ⟨rx.take (min rx.length T) :: chunks, ?_, ?_, ?_, ?_⟩
        · rw [hstep]; simp [ihm]
        · simp [ihj, List.take_append_drop]
        · intro c hc
          rcases List.mem_cons.mp hc with hc | hc
          · subst hc
            constructor
            · intro hnil
              rw [hnil] at htakelen
              simp at htakelen
              omega
            · rw [htakelen]; exact hkT
          · exact ihne c hc
        · rcases hchunks : chunks with _ | ⟨c₀, cs⟩
          · simp
          · subst hchunks
            have hjoin_ne : (c₀ :: cs).flatten ≠ [] := by
              have hc₀ : c₀ ≠ [] := (ihne c₀ (List.mem_cons_self _ _)).1
              simp only [List.flatten_cons]
              intro hcontra
              exact hc₀ (List.append_eq_nil.mp hcontra).1
            have hdrop_ne : rx.drop (min rx.length T) ≠ [] := by rw [← ihj]; exact hjoin_ne
            have hklt : min rx.length T < rx.length := by
              by_contra hge
              exact hdrop_ne (List.drop_eq_nil_of_le (Nat.le_of_not_lt hge))
            have hTlt : T < rx.length := by
              rcases Nat.le_total rx.length T with hc | hc
              · rw [Nat.min_eq_left hc] at hklt; omega
              · rw [Nat.min_eq_right hc] at hklt; omega
            have hminT : min rx.length T = T := Nat.min_eq_right (Nat.le_of_lt hTlt)
            intro c hc
            have hdl : (rx.take (min rx.length T) :: c₀ :: cs).dropLast =
                rx.take (min rx.length T) :: (c₀ :: cs).dropLast := rfl
            rw [hdl] at hc
            rcases List.mem_cons.mp hc with hc | hc
            · subst hc; rw [htakelen, hminT]
            · exact ihlast c hc

/-- C2: on a close/FIN notification with positive threshold `T`: if the
transport reports 0 bytes remaining, the handler marks the quote complete
immediately; otherwise it loops, appending and consuming `min remaining T`
bytes per iteration (every traced chunk is non-empty, at most `T` long, and
all but the last exactly `T` long), the loop terminates with all pending bytes
appended to the buffer in order, and only after the appends does the trace
mark completion and shut the transport down. -/
theorem QotdFinHandler.onWork_spec (T : Nat) (rx : List Char) (qb : QuoteBuffer)
    (hT : 0 < T) :
    (rx = [] →
      QotdFinHandler.onWork T rx qb =
        ([], { qb with m_quote_complete := true },
          [FinEvent.setComplete, FinEvent.rxReset, FinEvent.shutdown])) ∧
    (rx ≠ [] →
      (QotdFinHandler.onWork T rx qb).1 = [] ∧
      (QotdFinHandler.onWork T rx qb).2.1.m_buffer = qb.m_buffer ++ rx ∧
      (QotdFinHandler.onWork T rx qb).2.1.m_quote_complete = true ∧
      ∃ chunks : List (List Char),
        (QotdFinHandler.onWork T rx qb).2.2 =
          chunks.map FinEvent.append ++
            [FinEvent.setComplete, FinEvent.rxReset, FinEvent.shutdown] ∧
        chunks.flatten = rx ∧
        (∀ c ∈ chunks, c ≠ [] ∧ c.length ≤ T) ∧
        (∀ c ∈ chunks.dropLast, c.length = T)) := by
  constructor
  · intro hrx
    subst hrx
    rfl
  · intro hrx
    have h0 : rx.length ≠ 0 := by simpa [List.length_eq_zero] using hrx
    obtain ⟨h1, h2, chunks, hm, hj, hne, hlast⟩ :=
      QotdFinHandler.drainLoop_spec T hT rx.length rx qb (Nat.le_refl _)
    have hstep :
        QotdFinHandler.onWork T rx qb =
          ([], QuoteBuffer.setComplete false (QotdFinHandler.drainLoop T rx.length rx qb).2.1,
            (QotdFinHandler.drainLoop T rx.length rx qb).2.2 ++
              [FinEvent.setComplete, FinEvent.rxReset, FinEvent.shutdown]) := by
      simp [QotdFinHandler.onWork, h0]
    refine ⟨by rw [hstep], ?_, ?_, chunks, ?_, hj, hne, hlast⟩
    · rw [hstep]
      simp [h2, QuoteBuffer.setComplete_false]
    · rw [hstep]
      simp [QuoteBuffer.setComplete_false]
    · rw [hstep]
      simp [hm]

/-- C2 witness: threshold 10, one pending byte "A" on an empty buffer — the
FIN handler drains it, ends with buffer "A" and the completion flag set. -/
theorem QotdFinHandler.onWork_spec_witness :
    (QotdFinHandler.onWork 10 ['A']
        { m_buffer := [], m_quote_complete := false }).2.1.m_quote_complete = true ∧
    (QotdFinHandler.onWork 10 ['A']
        { m_buffer := [], m_quote_complete := false }).2.1.m_buffer = ['A'] := by
  have h := QotdFinHandler.onWork_spec 10 ['A']
    { m_buffer := [], m_quote_complete := false } (by decide)
  have h2 := h.2 (by decide)
  exact ⟨h2.2.2.1, by simpa using h2.2.1⟩

/-- The C3 scenario's first step: threshold 10, empty not-complete buffer,
the 15-byte stream "ABCDEFGHIJKLMNO" delivered in one data notification. -/
def qotdScenarioStep1 : List Char × QuoteBuffer :=
  QotdReceivedHandler.onWork 10 false false "ABCDEFGHIJKLMNO".toList
    { m_buffer := [], m_quote_complete := false }

/-- The C3 scenario's second step: the close notification delivered to the
FIN handler with whatever the first step left pending. -/
def qotdScenarioStep2 : List Char × QuoteBuffer × List FinEvent :=
  QotdFinHandler.onWork 10 qotdScenarioStep1.1 qotdScenarioStep1.2

/-- C3: with threshold 10 and an initially empty, not-complete buffer, the
data notification for "ABCDEFGHIJKLMNO" leaves the buffer equal to
"ABCDEFGHIJ" with the 5 bytes "KLMNO" still pending in the transport; the
subsequent close notification leaves the buffer equal to "ABCDEFGHIJKLMNO"
and the completion flag true. -/
theorem qotdScenario_spec :
    qotdScenarioStep1.2.m_buffer = "ABCDEFGHIJ".toList ∧
    qotdScenarioStep1.1 = "KLMNO".toList ∧
    qotdScenarioStep1.1.length = 5 ∧
    qotdScenarioStep1.2.m_quote_complete = false ∧
    qotdScenarioStep2.2.1.m_buffer = "ABCDEFGHIJKLMNO".toList ∧
    qotdScenarioStep2.2.1.m_quote_complete = true := by
  refine ⟨?_, ?_, ?_, ?_, ?_, ?_⟩ <;> rfl

/-- The write kinds of `IoWrite::WritePayload::WriteType` (IoWrite.hpp). -/
inductive WriteType where
  | BUFFER
  | STRING
  | STREAM
deriving DecidableEq, Repr

/-- `WritePayload` (IoWrite.hpp): the operation kind, the bytes it refers to
(for `BUFFER` the first `size` bytes of `data`; for `STRING` the bytes of the
null-terminated string), the `size` field, and the `result` slot, initialised
to 0 by the constructor. -/
structure WritePayload where
  type : WriteType
  data : List Nat := []
  size : Nat := 0
  result : Nat := 0
deriving DecidableEq, Repr

/-- `IoWrite::onExecute` (IoWrite.cpp lines 39-61): runs the protected
`AsyncTcpClient::write` (external, abstracted as `clientWrite`, the number of
bytes the client reports written for the given bytes) and stores its return
value in the payload's `result` slot. -/
def IoWrite.onExecute (clientWrite : List Nat → Nat) (p : WritePayload) :
    WritePayload × PicoStatus :=
  match p.type with
  | WriteType.BUFFER => ({ p with result := clientWrite (p.data.take p.size) }, PicoStatus.ok)
  | WriteType.STRING => ({ p with result := clientWrite p.data }, PicoStatus.ok)
  | WriteType.STREAM => ({ p with result := clientWrite p.data }, PicoStatus.ok)

/-- `IoWrite::write(const uint8_t*, size_t)` (IoWrite.cpp lines 74-81).  The
local `payload` is a `unique_ptr`, modelled as an `Option`: `std::move(payload)`
into `execute` consumes it, so after the call the local holds nothing.  The
bridge dispatch itself is modelled from the spec (§4.1, uncontended case): the
moved-in payload runs `onExecute`, which populates its `result` slot, and the
payload object dies with the call.  The source then returns `payload->result`
read through the moved-from local; the model returns that read as an
`Option Nat` (`none` = the local `unique_ptr` is null) together with the value
the `result` slot was populated with inside the dispatch. -/
def IoWrite.write (clientWrite : List Nat → Nat) (data : List Nat) (size : Nat) :
    Option Nat × Nat :=
  let payload : Option WritePayload :=
    some { type := WriteType.BUFFER, data := data, size := size }
  let executed := payload.map fun p => (IoWrite.onExecute clientWrite p).1
  let payloadAfterMove : Option WritePayload := none
  (payloadAfterMove.map fun p => p.result, (executed.map fun p => p.result).getD 0)

/-- `IoWrite::write(const char*)` (IoWrite.cpp lines 105-111): same shape with
a `STRING` payload; `str` holds the string's bytes. -/
def IoWrite.writeStr (clientWrite : List Nat → Nat) (str : List Nat) :
    Option Nat × Nat :=
  let payload : Option WritePayload :=
    some { type := WriteType.STRING, data := str }
  let executed := payload.map fun p => (IoWrite.onExecute clientWrite p).1
  let payloadAfterMove : Option WritePayload := none
  (payloadAfterMove.map fun p => p.result, (executed.map fun p => p.result).getD 0)

/-- C5 (code evaluated at the failing input): for the call
`IoWrite::write(data, 2)` with a client write reporting 2 bytes written, the
result slot populated inside the dispatch holds 2, but the value the function
returns is read through the local `payload` pointer after it was moved into
`execute` — the local is absent (`none`), so the read never sees the populated
slot, contrary to the claim; the string overload behaves the same way. -/
theorem IoWrite.write_reads_moved_payload :
    (IoWrite.write (fun l => l.length) [1, 2] 2).2 = 2 ∧
    (IoWrite.write (fun l => l.length) [1, 2] 2).1 = none ∧
    (IoWrite.writeStr (fun l => l.length) [72, 105]).2 = 2 ∧
    (IoWrite.writeStr (fun l => l.length) [72, 105]).1 = none := by
  decide

/-- Program counter of one `SerialPrinter::print` call (SerialPrinter.cpp
lines 23-33): about to attempt the compare-and-swap on `print_lock`; holding
the lock; having created/scheduled the `PrintHandler`; returned. -/
inductive PrintPC where
  | start
  | locked
  | created
  | done
deriving DecidableEq, Repr

/-- One in-flight `SerialPrinter::print` call: its program counter, its return
value once it returned, and how many handlers it scheduled on its own behalf. -/
structure PrintCall where
  pc : PrintPC
  res : Option PicoStatus := none
  sched : Nat := 0
deriving DecidableEq, Repr

/-- One atomic step of a `SerialPrinter::print` call against the shared
`print_lock` (SerialPrinter.cpp): at `start` the call performs
`compare_exchange_strong(false, true)` — if the lock is already held it
returns `PICO_ERROR_RESOURCE_IN_USE` at once, scheduling nothing; otherwise it
takes the lock, then `PrintHandler::create` schedules one handler, then the
lock is released and the call returns `PICO_OK`.  Returns the new lock value
and call state. -/
def SerialPrinter.stepCall (lock : Bool) (c : PrintCall) : Bool × PrintCall :=
  match c.pc with
  | PrintPC.start =>
      if lock then (lock, { c with pc := PrintPC.done, res := some PicoStatus.resourceInUse })
      else (true, { c with pc := PrintPC.locked })
  | PrintPC.locked => (lock, { c with pc := PrintPC.created, sched := c.sched + 1 })
  | PrintPC.created => (false, { c with pc := PrintPC.done, res := some PicoStatus.ok })
  | PrintPC.done => (lock, c)

/-- Two `print` calls racing on the one shared `print_lock` (the class-static
atomic of SerialPrinter.cpp line 17). -/
structure PrinterSys where
  lock : Bool
  a : PrintCall
  b : PrintCall
deriving DecidableEq, Repr

/-- An interleaving step: `true` steps call `a`, `false` steps call `b`; the
compare-and-swap atomicity makes each step indivisible. -/
def SerialPrinter.stepSys (choice : Bool) (s : PrinterSys) : PrinterSys :=
  if choice then
    let r := SerialPrinter.stepCall s.lock s.a
    { s with lock := r.1, a := r.2 }
  else
    let r := SerialPrinter.stepCall s.lock s.b
    { s with lock := r.1, b := r.2 }

/-- Run an arbitrary interleaving of the two calls. -/
def SerialPrinter.runSched : List Bool → PrinterSys → PrinterSys
  | [], s => s
  | c :: cs, s => SerialPrinter.runSched cs (SerialPrinter.stepSys c s)

/-- Both calls about to start, lock free, nothing scheduled. -/
def SerialPrinter.initSys : PrinterSys :=
  { lock := false, a := { pc := PrintPC.start }, b := { pc := PrintPC.start } }

/-- A call is inside the guarded region. -/
def SerialPrinter.inside (c : PrintCall) : Bool :=
  match c.pc with
  | PrintPC.locked => true
  | PrintPC.created => true
  | _ => false

/-- Per-call invariant tying the program counter to the scheduled count and
result: a rejected call scheduled nothing, a successful one exactly one. -/
def SerialPrinter.callInv (c : PrintCall) : Prop :=
  match c.pc with
  | PrintPC.start => c.sched = 0 ∧ c.res = none
  | PrintPC.locked => c.sched = 0 ∧ c.res = none
  | PrintPC.created => c.sched = 1 ∧ c.res = none
  | PrintPC.done =>
      (c.res = some PicoStatus.ok ∧ c.sched = 1) ∨
      (c.res = some PicoStatus.resourceInUse ∧ c.sched = 0)

/-- System invariant: the lock is held exactly when one of the calls is inside
the guarded region, never both at once, and both calls satisfy `callInv`. -/
def SerialPrinter.sysInv (s : PrinterSys) : Prop :=
  s.lock = (SerialPrinter.inside s.a || SerialPrinter.inside s.b) ∧
  ¬(SerialPrinter.inside s.a = true ∧ SerialPrinter.inside s.b = true) ∧
  SerialPrinter.callInv s.a ∧ SerialPrinter.callInv s.b

/-- The initial state satisfies the invariant. -/
theorem SerialPrinter.sysInv_init : SerialPrinter.sysInv SerialPrinter.initSys := by
  refine ⟨rfl, by decide, ?_, ?_⟩ <;> exact ⟨rfl, rfl⟩

/-- Every interleaving step preserves the invariant. -/
theorem SerialPrinter.sysInv_step (choice : Bool) (s : PrinterSys)
    (h : SerialPrinter.sysInv s) : SerialPrinter.sysInv (SerialPrinter.stepSys choice s) := by
  obtain ⟨lock, ⟨apc, ares, asched⟩, ⟨bpc, bres, bsched⟩⟩ := s
  obtain ⟨hlock, hmutex, ha, hb⟩ := h
  cases choice <;> cases apc <;> cases bpc <;> cases lock <;>
    simp_all [SerialPrinter.stepSys, SerialPrinter.stepCall, SerialPrinter.inside,
      SerialPrinter.sysInv, SerialPrinter.callInv]

/-- The invariant holds after any interleaving from the initial state. -/
theorem SerialPrinter.sysInv_run (l : List Bool) :
    SerialPrinter.sysInv (SerialPrinter.runSched l SerialPrinter.initSys) := by
  suffices h : ∀ s, SerialPrinter.sysInv s → SerialPrinter.sysInv (SerialPrinter.runSched l s) from
    h _ SerialPrinter.sysInv_init
  induction l with
  | nil => intro s hs; exact hs
  | cons c cs ih =>
    intro s hs
    exact ih _ (SerialPrinter.sysInv_step c s hs)

/-- C6: for any interleaving of two `print` calls racing on the shared
busy-guarded bridge, at most one call is ever inside the guarded region; a
call whose compare-and-swap sees the lock held completes at once with
`PICO_ERROR_RESOURCE_IN_USE`, scheduling nothing and leaving the lock to the
winner; a call that returned "resource in use" scheduled nothing on its
behalf, a call that returned `PICO_OK` scheduled exactly one handler, and once
both calls have returned the guard is released. -/
theorem SerialPrinter.print_contention (l : List Bool) :
    (SerialPrinter.inside (SerialPrinter.runSched l SerialPrinter.initSys).a &&
      SerialPrinter.inside (SerialPrinter.runSched l SerialPrinter.initSys).b) = false ∧
    ((SerialPrinter.runSched l SerialPrinter.initSys).a.res =
        some PicoStatus.resourceInUse →
      (SerialPrinter.runSched l SerialPrinter.initSys).a.sched = 0) ∧
    ((SerialPrinter.runSched l SerialPrinter.initSys).b.res =
        some PicoStatus.resourceInUse →
      (SerialPrinter.runSched l SerialPrinter.initSys).b.sched = 0) ∧
    ((SerialPrinter.runSched l SerialPrinter.initSys).a.res = some PicoStatus.ok →
      (SerialPrinter.runSched l SerialPrinter.initSys).a.sched = 1) ∧
    ((SerialPrinter.runSched l SerialPrinter.initSys).b.res = some PicoStatus.ok →
      (SerialPrinter.runSched l SerialPrinter.initSys).b.sched = 1) ∧
    ((SerialPrinter.runSched l SerialPrinter.initSys).a.pc = PrintPC.done →
      (SerialPrinter.runSched l SerialPrinter.initSys).b.pc = PrintPC.done →
      (SerialPrinter.runSched l SerialPrinter.initSys).lock = false) ∧
    (∀ c : PrintCall, c.pc = PrintPC.start →
      (SerialPrinter.runSched l SerialPrinter.initSys).lock = true →
      (SerialPrinter.stepCall (SerialPrinter.runSched l SerialPrinter.initSys).lock c).2.res =
          some PicoStatus.resourceInUse ∧
        (SerialPrinter.stepCall (SerialPrinter.runSched l SerialPrinter.initSys).lock c).2.sched =
          c.sched ∧
        (SerialPrinter.stepCall (SerialPrinter.runSched l SerialPrinter.initSys).lock c).2.pc =
          PrintPC.done) := by
  obtain ⟨hlock, hmutex, ha, hb⟩ := SerialPrinter.sysInv_run l
  set s := SerialPrinter.runSched l SerialPrinter.initSys with hs
  refine ⟨?_, ?_, ?_, ?_, ?_, ?_, ?_⟩
  · cases hia : SerialPrinter.inside s.a
    · simp
    · cases hib : SerialPrinter.inside s.b
      · simp
      · exact absurd ⟨hia, hib⟩ hmutex
  · intro hres
    unfold SerialPrinter.callInv at ha
    rcases hpc : s.a.pc with _ | _ | _ | _ <;> rw [hpc] at ha
    · exact ha.1
    · exact ha.1
    · rw [ha.2] at hres; simp at hres
    · rcases ha with ⟨hok, _⟩ | ⟨_, hzero⟩
      · rw [hok] at hres; simp at hres
      · exact hzero
  · intro hres
    unfold SerialPrinter.callInv at hb
    rcases hpc : s.b.pc with _ | _ | _ | _ <;> rw [hpc] at hb
    · exact hb.1
    · exact hb.1
    · rw [hb.2] at hres; simp at hres
    · rcases hb with ⟨hok, _⟩ | ⟨_, hzero⟩
      · rw [hok] at hres; simp at hres
      · exact hzero
  · intro hres
    unfold SerialPrinter.callInv at ha
    rcases hpc : s.a.pc with _ | _ | _ | _ <;> rw [hpc] at ha
    · rw [ha.2] at hres; simp at hres
    · rw [ha.2] at hres; simp at hres
    · exact ha.1
    · rcases ha with ⟨_, hone⟩ | ⟨hbad, _⟩
      · exact hone
      · rw [hbad] at hres; simp at hres
  · intro hres
    unfold SerialPrinter.callInv at hb
    rcases hpc : s.b.pc with _ | _ | _ | _ <;> rw [hpc] at hb
    · rw [hb.2] at hres; simp at hres
    · rw [hb.2] at hres; simp at hres
    · exact hb.1
    · rcases hb with ⟨_, hone⟩ | ⟨hbad, _⟩
      · exact hone
      · rw [hbad] at hres; simp at hres
  · intro hadone hbdone
    rw [hlock]
    simp [SerialPrinter.inside, hadone, hbdone]
  · intro c hcpc hheld
    rw [hheld]
    simp [SerialPrinter.stepCall, hcpc]

/-- C6 witness: the interleaving where call `a` wins the compare-and-swap and
call `b` attempts its own while `a` is inside — `b` returns "resource in use"
having scheduled nothing, `a` returns ok having scheduled one handler, and the
guard ends released. -/
theorem SerialPrinter.print_contention_witness :
    (SerialPrinter.runSched [true, false, true, true] SerialPrinter.initSys).b.res =
        some PicoStatus.resourceInUse ∧
    (SerialPrinter.runSched [true, false, true, true] SerialPrinter.initSys).b.sched = 0 ∧
    (SerialPrinter.runSched [true, false, true, true] SerialPrinter.initSys).a.res =
        some PicoStatus.ok ∧
    (SerialPrinter.runSched [true, false, true, true] SerialPrinter.initSys).a.sched = 1 ∧
    (SerialPrinter.runSched [true, false, true, true] SerialPrinter.initSys).lock = false := by
  have h := SerialPrinter.print_contention [true, false, true, true]
  refine ⟨by decide, h.2.2.1 (by decide), by decide, h.2.2.2.1 (by decide), ?_⟩
  exact h.2.2.2.2.2.1 (by decide) (by decide)

/-- Modelled from the spec: the lifecycle state for one-shot handlers.  The
`EventBridge`/ephemeral-bridge machinery that `PrintHandler::create`
(PrintHandler.hpp lines 80-88) relies on — `initialiseEphemeralBridge`,
`takeOwnership` of the `unique_ptr` to the handler itself, and the run loop's
post-callback destruction — is not among this repository's sources; per spec
§4.3 the factory moves a unique handle into the handler, schedules its single
callback, and after the callback returns the handler is destroyed exactly
once.  Handlers are identified by allocation order; `queue` holds the
scheduled not-yet-run handlers, `alive` the allocated not-yet-destroyed ones,
`completed` the callbacks that ran, `destroyed` the destruction events. -/
structure OneShotSys where
  nextId : Nat
  queue : List Nat
  alive : List Nat
  completed : List Nat
  destroyed : List Nat
deriving DecidableEq, Repr

/-- No handlers created, scheduled, run or destroyed yet. -/
def OneShotSys.initial : OneShotSys :=
  { nextId := 0, queue := [], alive := [], completed := [], destroyed := [] }

/-- `PrintHandler::create` (PrintHandler.hpp lines 80-88): allocate a handler
owning itself and schedule its single callback on the owning core. -/
def PrintHandler.create (s : OneShotSys) : OneShotSys :=
  { nextId := s.nextId + 1,
    queue := s.queue ++ [s.nextId],
    alive := s.alive ++ [s.nextId],
    completed := s.completed,
    destroyed := s.destroyed }

/-- `N` calls to the factory in a row. -/
def PrintHandler.createN : Nat → OneShotSys → OneShotSys
  | 0, s => s
  | n + 1, s => PrintHandler.createN n (PrintHandler.create s)

/-- Modelled from the spec: the owning core's run loop drains the scheduled
one-shot handlers in submission order; each handler's callback
(`PrintHandler::onWork`, PrintHandler.cpp lines 44-49) runs exactly once to
completion, and the run loop's post-callback step destroys the handler
(spec §4.3, §9: the moved-in unique handle is returned for destruction). -/
def OneShotSys.runAllAux : List Nat → OneShotSys → OneShotSys
  | [], s => s
  | h :: t, s =>
      OneShotSys.runAllAux t
        { s with
          queue := t,
          alive := s.alive.erase h,
          completed := s.completed ++ [h],
          destroyed := s.destroyed ++ [h] }

/-- Let every scheduled callback run. -/
def OneShotSys.runAll (s : OneShotSys) : OneShotSys :=
  OneShotSys.runAllAux s.queue s

/-- Closed form of `createN`: it allocates ids `nextId, …, nextId + n - 1`,
scheduling each and leaving all alive. -/
theorem PrintHandler.createN_spec (n : Nat) :
    ∀ s : OneShotSys,
      PrintHandler.createN n s =
        { nextId := s.nextId + n,
          queue := s.queue ++ List.range' s.nextId n,
          alive := s.alive ++ List.range' s.nextId n,
          completed := s.completed,
          destroyed := s.destroyed } := by
  induction n with
  | zero => intro s; simp [PrintHandler.createN]
  | succ n ih =>
    intro s
    rw [PrintHandler.createN, ih]
    simp [PrintHandler.create, List.range'_succ]
    omega

/-- Closed form of the run loop: it empties the queue, erases each run
handler from the alive set, and records each callback and destruction once,
in order. -/
theorem OneShotSys.runAllAux_spec (q : List Nat) :
    ∀ s : OneShotSys, s.queue = q →
      OneShotSys.runAllAux q s =
        { nextId := s.nextId,
          queue := [],
          alive := q.foldl List.erase s.alive,
          completed := s.completed ++ q,
          destroyed := s.destroyed ++ q } := by
  induction q with
  | nil =>
    intro s hq
    obtain ⟨n, q, a, c, d⟩ := s
    simp only at hq
    subst hq
    simp [OneShotSys.runAllAux]
  | cons h t ih =>
    intro s hq
    rw [OneShotSys.runAllAux, ih _ rfl]
    simp [List.foldl_cons]

/-- Erasing, in order, every element of a list from that same list leaves
nothing. -/
theorem foldl_erase_self (l : List Nat) : l.foldl List.erase l = [] := by
  suffices h : ∀ t pre : List Nat, pre = t → t.foldl List.erase pre = [] from h l l rfl
  intro t
  induction t with
  | nil => intro pre hpre; simp [hpre]
  | cons h t ih =>
    intro pre hpre
    subst hpre
    rw [List.foldl_cons, List.erase_cons_head]
    exact ih t rfl

/-- C8 (spec-modelled run loop): calling the one-shot factory `n` times and
letting every scheduled callback run yields exactly `n` completed callbacks,
one per created handler in creation order with none run twice, every handler
destroyed exactly once, and no handler left alive (leaked). -/
theorem PrintHandler.create_oneshot_lifecycle (n : Nat) :
    (OneShotSys.runAll (PrintHandler.createN n OneShotSys.initial)).completed =
      List.range n ∧
    (OneShotSys.runAll (PrintHandler.createN n OneShotSys.initial)).completed.length = n ∧
    (OneShotSys.runAll (PrintHandler.createN n OneShotSys.initial)).completed.Nodup ∧
    (OneShotSys.runAll (PrintHandler.createN n OneShotSys.initial)).destroyed =
      List.range n ∧
    (OneShotSys.runAll (PrintHandler.createN n OneShotSys.initial)).destroyed.Nodup ∧
    (OneShotSys.runAll (PrintHandler.createN n OneShotSys.initial)).alive = [] := by
  have hcre := PrintHandler.createN_spec n OneShotSys.initial
  have hrange : List.range' 0 n = List.range n := by
    rw [List.range_eq_range']
  rw [OneShotSys.runAll, hcre]
  simp only [OneShotSys.initial, List.nil_append, Nat.zero_add, hrange]
  rw [OneShotSys.runAllAux_spec (List.range n) _ rfl]
  simp [foldl_erase_self, List.nodup_range]

/-- Modelled from the spec: the owning core's run loop for persistent event
handlers (`PerpetualBridge`, not among this repository's sources).  Per spec
§2 and §5, each firing enqueues the handler onto its owning core's execution
context, which is a FIFO run loop executing submitted callables one at a time,
in submission order, each to completion; callbacks never block.  `d k` is the
(positive) duration of the `k`-th queued callback; `runLoopStart d k` is the
time at which that callback starts: the run loop picks it up only after the
previous callback finished. -/
def runLoopStart (d : Nat → Nat) : Nat → Nat
  | 0 => 0
  | k + 1 => runLoopStart d k + d k

/-- The time at which the `k`-th queued callback finishes. -/
def runLoopEnd (d : Nat → Nat) (k : Nat) : Nat :=
  runLoopStart d k + d k

/-- Start times are monotone along the queue. -/
theorem runLoopStart_mono (d : Nat → Nat) :
    ∀ i j, i ≤ j → runLoopStart d i ≤ runLoopStart d j := by
  intro i j hij
  induction j with
  | zero =>
    have : i = 0 := Nat.le_zero.mp hij
    subst this
    exact Nat.le_refl _
  | succ j ih =>
    rcases Nat.lt_or_ge i (j + 1) with hlt | hge
    · have hle : i ≤ j := Nat.lt_succ_iff.mp hlt
      calc runLoopStart d i ≤ runLoopStart d j := ih hle
        _ ≤ runLoopStart d j + d j := Nat.le_add_right _ _
        _ = runLoopStart d (j + 1) := rfl
    · have : i = j + 1 := Nat.le_antisymm hij hge
      subst this
      exact Nat.le_refl _

/-- C9 (spec-modelled run loop): for a persistent handler whose firings queue
callbacks `fs` on the FIFO run loop, any two invocations of the same handler
(`fs` entries `i < j` naming the same handler) never overlap in time — the
earlier callback ends no later than the later one starts, and the execution
order is the firing order (the earlier firing's callback also starts strictly
first whenever callback durations are positive). -/
theorem perpetualBridge_no_overlap (d : Nat → Nat) (fs : List Nat) (i j : Nat)
    (hd : ∀ k, 0 < d k) (hij : i < j) (hj : j < fs.length)
    (hsame : fs.get ⟨i, Nat.lt_trans hij hj⟩ = fs.get ⟨j, hj⟩) :
    runLoopEnd d i ≤ runLoopStart d j ∧
    ¬(runLoopStart d j < runLoopEnd d i ∧ runLoopStart d i < runLoopEnd d j) ∧
    runLoopStart d i < runLoopStart d j := by
  have hends : runLoopEnd d i = runLoopStart d (i + 1) := rfl
  have hstep : runLoopEnd d i ≤ runLoopStart d j := by
    rw [hends]
    exact runLoopStart_mono d (i + 1) j hij
  refine ⟨hstep, ?_, ?_⟩
  · intro ⟨hcontra, _⟩
    exact absurd hstep (Nat.not_le_of_lt hcontra)
  · have hlt : runLoopStart d i < runLoopEnd d i := Nat.lt_add_of_pos_right (hd i)
    exact Nat.lt_of_lt_of_le hlt hstep

/-- C9 witness: two firings of handler 7, unit-duration callbacks — the first
callback ends at time 1, exactly when the second starts. -/
theorem perpetualBridge_no_overlap_witness :
    runLoopEnd (fun _ => 1) 0 ≤ runLoopStart (fun _ => 1) 1 ∧
    runLoopStart (fun _ => 1) 0 < runLoopStart (fun _ => 1) 1 := by
  have h := perpetualBridge_no_overlap (fun _ => 1) [7, 7] 0 1
    (fun k => Nat.one_pos) (by decide) (by decide) (by decide)
  exact ⟨h.1, h.2.2⟩
